import Mathlib

/-!
Verification of the golox lexical scanner (cmd/myinterpreter/main.go) against
its natural-language specification.

The Go source is shallowly embedded below.  The source buffer is modelled as a
`List Char`; every character of interest to the scanner is ASCII, so a `Char`
stands for one Go byte.  Go's global error state (`hadError` and the stderr
diagnostic stream) is threaded through the `Scanner` structure as the fields
`hadError` and `errors`.  Go code that can panic (index out of range) is
modelled with `Option`: `none` is a runtime panic.  The scanner's loops are
modelled with an explicit fuel argument; each loop consumes at least one
source character per iteration, so the fuel passed at each call site
(`source.length - current`, resp. `source.length + 1` for the main loop) is
always sufficient.
-/

namespace GoLox

/-- Go: `type TokenType int` with the iota constants of main.go. -/
inductive TokenType where
  | LEFT_PAREN | RIGHT_PAREN | LEFT_BRACE | RIGHT_BRACE | COMMA | DOT
  | MINUS | PLUS | SEMICOLON | SLASH | STAR
  | BANG | BANG_EQUAL | EQUAL | EQUAL_EQUAL
  | GREATER | GREATER_EQUAL | LESS | LESS_EQUAL
  | IDENTIFIER | STRING | NUMBER
  | AND | CLASS | ELSE | FALSE | FUN | FOR | IF | NIL | OR | PRINT
  | RETURN | SUPER | THIS | TRUE | VAR | WHILE
  | EOF
deriving DecidableEq, Repr

/-- The iota value of each TokenType constant (its position in the const block). -/
def TokenType.goIota : TokenType → Nat
  | .LEFT_PAREN => 0
  | .RIGHT_PAREN => 1
  | .LEFT_BRACE => 2
  | .RIGHT_BRACE => 3
  | .COMMA => 4
  | .DOT => 5
  | .MINUS => 6
  | .PLUS => 7
  | .SEMICOLON => 8
  | .SLASH => 9
  | .STAR => 10
  | .BANG => 11
  | .BANG_EQUAL => 12
  | .EQUAL => 13
  | .EQUAL_EQUAL => 14
  | .GREATER => 15
  | .GREATER_EQUAL => 16
  | .LESS => 17
  | .LESS_EQUAL => 18
  | .IDENTIFIER => 19
  | .STRING => 20
  | .NUMBER => 21
  | .AND => 22
  | .CLASS => 23
  | .ELSE => 24
  | .FALSE => 25
  | .FUN => 26
  | .FOR => 27
  | .IF => 28
  | .NIL => 29
  | .OR => 30
  | .PRINT => 31
  | .RETURN => 32
  | .SUPER => 33
  | .THIS => 34
  | .TRUE => 35
  | .VAR => 36
  | .WHILE => 37
  | .EOF => 38

/-- Go: `var keywords = map[string]TokenType{...}`.  A Go map with string keys
behaves, for lookup, like this association list. -/
def keywords : List (String × TokenType) :=
  [ ("and", .AND), ("class", .CLASS), ("else", .ELSE), ("false", .FALSE),
    ("for", .FOR), ("fun", .FUN), ("if", .IF), ("nil", .NIL), ("or", .OR),
    ("print", .PRINT), ("return", .RETURN), ("super", .SUPER),
    ("this", .THIS), ("true", .TRUE), ("var", .VAR), ("while", .WHILE) ]

/-- Modelled from the spec: `strconv.ParseFloat(text, 64)` (Go standard
library, not part of this repository) deterministically maps the numeric text
to a 64-bit float.  The scanner only stores the resulting value and never
inspects it, so the float64 value is represented here by the text it was
parsed from (a finer-grained but faithful representation for every property
proved below, none of which compares floats arising from different texts). -/
structure Float64Val where
  ofText : String
deriving DecidableEq, Repr

/-- Go: `number, _ := strconv.ParseFloat(text, 64)` (the error is ignored by
the scanner; on the digit strings the scanner produces, it never fails). -/
def goParseFloat (text : String) : Float64Val := ⟨text⟩

/-- Go: the LoxLiteral interface with its three implementations LoxString,
LoxNumber and LoxEmptyLiteral, as a closed sum. -/
inductive LoxLiteral where
  | LoxString (value : String)
  | LoxNumber (value : Float64Val)
  | LoxEmptyLiteral
deriving DecidableEq, Repr

/-- One character of Go's `%q` quoting (used by LoxString.RawPrint): the
escapes fmt uses for the characters that can occur in a scanned string
payload (`%q` additionally hex-escapes non-printable bytes, which no claim
below depends on). -/
def goQuoteChar (c : Char) : String :=
  if c = '"' then "\\\""
  else if c = '\\' then "\\\\"
  else if c = '\n' then "\\n"
  else if c = '\r' then "\\r"
  else if c = '\t' then "\\t"
  else String.singleton c

/-- Go: `fmt.Sprintf("%q", value)` on a string value. -/
def goQuote (value : String) : String :=
  "\"" ++ String.join (value.data.map goQuoteChar) ++ "\""

/-- Modelled from the spec: `fmt.Sprintf("%v", value)` on a float64 (Go
standard library) renders the shortest decimal form that round-trips.  Since
`Float64Val` is represented by its source text, this is rendered by
normalizing that text (dropping leading zeros and a trailing zero fraction);
the exponent-notation thresholds of `%v` are not modelled, and no theorem
below depends on this function's output. -/
def goFormatFloat (v : Float64Val) : String :=
  let text := v.ofText
  let intPart := text.takeWhile (fun c => c ≠ '.')
  let fracPart := (text.dropWhile (fun c => c ≠ '.')).drop 1
  let intNorm := if (intPart.dropWhile (fun c => c = '0')).isEmpty then "0"
    else intPart.dropWhile (fun c => c = '0')
  let fracNorm := String.mk (fracPart.data.reverse.dropWhile (fun c => c = '0')).reverse
  if fracNorm.isEmpty then intNorm else intNorm ++ "." ++ fracNorm

/-- Go: the RawPrint method of each LoxLiteral implementation. -/
def LoxLiteral.RawPrint : LoxLiteral → String
  | .LoxString value => goQuote value
  | .LoxNumber value => goFormatFloat value
  | .LoxEmptyLiteral => "null"

/-- Go: `type Token struct { _type TokenType; lexeme string; literal LoxLiteral; line int }`. -/
structure Token where
  _type : TokenType
  lexeme : String
  literal : LoxLiteral
  line : Nat
deriving DecidableEq, Repr

/-- What Go's fmt prints for the verb `%s` applied to a TokenType value:
TokenType has no String method anywhere in the repository, so fmt falls back
to its bad-verb form `%!s(main.TokenType=<n>)` where `<n>` is the constant's
integer (iota) value. -/
def goFormatTokenType (t : TokenType) : String :=
  "%!s(main.TokenType=" ++ toString t.goIota ++ ")"

/-- Go: `func (tok *Token) String() string`, i.e.
`fmt.Sprintf("%s %s %s", tok._type, tok.lexeme, tok.literal.RawPrint())`. -/
def Token.goString (tok : Token) : String :=
  goFormatTokenType tok._type ++ " " ++ tok.lexeme ++ " " ++ tok.literal.RawPrint

/-- One diagnostic reported through LoxReport: its line, `where` argument and
message. -/
structure LoxDiag where
  line : Nat
  whereArg : String
  message : String
deriving DecidableEq, Repr

/-- The line LoxReport writes to stderr:
`fmt.Fprintf(os.Stderr, "[line %d] Error%s: %s\n", line, where, message)`. -/
def LoxDiag.format (d : LoxDiag) : String :=
  "[line " ++ toString d.line ++ "] Error" ++ d.whereArg ++ ": " ++ d.message

/-- Go: `type Scanner struct { source string; tokens []Token; start, current,
line int }`, extended with the process-wide error state that Go keeps in the
global `hadError` and the stderr stream: both are threaded through the
scanner state in this embedding, since the scanner is the only code that
reports errors during a run. -/
structure Scanner where
  source : List Char
  tokens : List Token
  start : Nat
  current : Nat
  line : Nat
  hadError : Bool
  errors : List LoxDiag
deriving DecidableEq, Repr

/-- The scanner state without the process-wide error state: exactly the
fields of Go's Scanner struct. -/
structure ScanCore where
  source : List Char
  tokens : List Token
  start : Nat
  current : Nat
  line : Nat
deriving DecidableEq, Repr

/-- Projection onto the Go Scanner struct fields (forgetting the threaded
global error state). -/
def Scanner.core (scan : Scanner) : ScanCore :=
  ⟨scan.source, scan.tokens, scan.start, scan.current, scan.line⟩

/-- Replace the threaded global error state of a scanner. -/
def withGlobals (scan : Scanner) (hadError0 : Bool) (errors0 : List LoxDiag) : Scanner :=
  { scan with hadError := hadError0, errors := errors0 }

/-- Go: `func NewScanner(source string) Scanner` invoked while the
process-wide error state holds `hadError0` / previously written diagnostics
`errors0` (the Go globals persist across runs, e.g. in RunPrompt). -/
def NewScannerFrom (source : List Char) (hadError0 : Bool) (errors0 : List LoxDiag) : Scanner :=
  { source := source, tokens := [], start := 0, current := 0, line := 1,
    hadError := hadError0, errors := errors0 }

/-- Go: `func NewScanner(source string) Scanner` at process start
(`var hadError bool = false`, empty stderr). -/
def NewScanner (source : List Char) : Scanner :=
  NewScannerFrom source false []

/-- Go: `func (scan *Scanner) isAtEnd() bool`. -/
def isAtEnd (scan : Scanner) : Bool :=
  scan.current ≥ scan.source.length

/-- Go: `func (scan *Scanner) advance() byte`.  Go indexes
`source[current]` unguarded here, but every call site is guarded (by the main
loop's isAtEnd check or by a peek that returned a non-sentinel character), so
the out-of-range default below is never read on any execution of the
program. -/
def advance (scan : Scanner) : Char × Scanner :=
  (scan.source.getD scan.current '\x00', { scan with current := scan.current + 1 })

/-- Go: `func (scan *Scanner) peek() byte` (returns the NUL sentinel at end
of input). -/
def peek (scan : Scanner) : Char :=
  if isAtEnd scan then '\x00' else scan.source.getD scan.current '\x00'

/-- Go: `func (scan *Scanner) peekNext() byte`.  The guard is
`current+1 > len(source)` (not `>=`), so when `current+1 = len(source)` the
function indexes `source[len(source)]`, a Go runtime panic — modelled as
`none`. -/
def peekNext (scan : Scanner) : Option Char :=
  if scan.current + 1 > scan.source.length then some '\x00'
  else scan.source.get? (scan.current + 1)

/-- Go: `func (scan *Scanner) match(expected byte) bool` (named matchChar
because `match` is a Lean keyword); returns the flag and the updated
scanner. -/
def matchChar (scan : Scanner) (expected : Char) : Bool × Scanner :=
  if isAtEnd scan then (false, scan)
  else if scan.source.getD scan.current '\x00' ≠ expected then (false, scan)
  else (true, { scan with current := scan.current + 1 })

/-- Go: `func (scan *Scanner) isDigit(char byte) bool`. -/
def isDigit (char : Char) : Bool :=
  '0' ≤ char && char ≤ '9'

/-- Go: `func (scan *Scanner) isAlpha(char byte) bool`. -/
def isAlpha (char : Char) : Bool :=
  ('a' ≤ char && char ≤ 'z') || ('A' ≤ char && char ≤ 'Z') || char = '_'

/-- Go: `func (scan *Scanner) isAlphaNumeric(char byte) bool`. -/
def isAlphaNumeric (char : Char) : Bool :=
  isAlpha char || isDigit char

/-- The Go slice expression `source[a:b]` as a String.  Every slice the
scanner takes has `a ≤ b ≤ len(source)`. -/
def sliceStr (source : List Char) (a b : Nat) : String :=
  String.mk ((source.take b).drop a)

/-- Go: `func (scan *Scanner) addTokenAndLiteral(_type TokenType, literal LoxLiteral)`. -/
def addTokenAndLiteral (scan : Scanner) (t : TokenType) (literal : LoxLiteral) : Scanner :=
  { scan with tokens := scan.tokens ++
      [{ _type := t, lexeme := sliceStr scan.source scan.start scan.current,
         literal := literal, line := scan.line }] }

/-- Go: `func (scan *Scanner) addToken(_type TokenType)`. -/
def addToken (scan : Scanner) (t : TokenType) : Scanner :=
  addTokenAndLiteral scan t .LoxEmptyLiteral

/-- Go: `func LoxReport(line int, where string, message string)`: writes the
formatted diagnostic to stderr and sets the process-wide hadError flag (both
threaded through the scanner state here). -/
def LoxReport (scan : Scanner) (line : Nat) (whereArg : String) (message : String) : Scanner :=
  { scan with errors := scan.errors ++ [⟨line, whereArg, message⟩], hadError := true }

/-- Go: `func LoxError(line int, message string)`. -/
def LoxError (scan : Scanner) (line : Nat) (message : String) : Scanner :=
  LoxReport scan line "" message

/-- The loop `for scan.isDigit(scan.peek()) { scan.advance() }` inside
Scanner.number.  The fuel bounds the remaining iterations; each call site
passes `source.length - current`, which suffices since each iteration
advances `current` by one and the loop never passes the end of the source. -/
def digitsLoop : Nat → Scanner → Scanner
  | 0, scan => scan
  | fuel + 1, scan =>
    if isDigit (peek scan) then digitsLoop fuel (advance scan).2 else scan

/-- The loop `for scan.isAlphaNumeric(scan.peek()) { scan.advance() }` inside
Scanner.identifier (fuel as in digitsLoop). -/
def alphaNumLoop : Nat → Scanner → Scanner
  | 0, scan => scan
  | fuel + 1, scan =>
    if isAlphaNumeric (peek scan) then alphaNumLoop fuel (advance scan).2 else scan

/-- The comment-skipping loop
`for scan.peek() != '\n' && !scan.isAtEnd() { scan.advance() }` inside
Scanner.scanToken (fuel as in digitsLoop). -/
def commentLoop : Nat → Scanner → Scanner
  | 0, scan => scan
  | fuel + 1, scan =>
    if peek scan != '\n' && !(isAtEnd scan) then commentLoop fuel (advance scan).2 else scan

/-- The loop
`for scan.peek() != '"' && !scan.isAtEnd() { if scan.peek() == '\n' { scan.line++ }; scan.advance() }`
inside Scanner.parseString (fuel as in digitsLoop). -/
def stringLoop : Nat → Scanner → Scanner
  | 0, scan => scan
  | fuel + 1, scan =>
    if peek scan != '"' && !(isAtEnd scan) then
      let scan1 := if peek scan = '\n' then { scan with line := scan.line + 1 } else scan
      stringLoop fuel (advance scan1).2
    else scan

/-- Go: `func (scan *Scanner) number()`.  Returns `none` where Go panics:
when `peek() == '.'` and the `.` is the last source character, `peekNext()`
indexes out of range. -/
def number (scan : Scanner) : Option Scanner :=
  let scan := digitsLoop (scan.source.length - scan.current) scan
  let afterFraction : Option Scanner :=
    if peek scan = '.' then
      match peekNext scan with
      | none => none
      | some c =>
        if isDigit c then
          let scan := (advance scan).2
          some (digitsLoop (scan.source.length - scan.current) scan)
        else some scan
    else some scan
  match afterFraction with
  | none => none
  | some scan =>
    let numberLiteral :=
      LoxLiteral.LoxNumber (goParseFloat (sliceStr scan.source scan.start scan.current))
    some (addTokenAndLiteral scan .NUMBER numberLiteral)

/-- Go: `func (scan *Scanner) identifier()`. -/
def identifier (scan : Scanner) : Scanner :=
  let scan := alphaNumLoop (scan.source.length - scan.current) scan
  let text := sliceStr scan.source scan.start scan.current
  let t := match List.lookup text keywords with
    | some t => t
    | none => TokenType.IDENTIFIER
  addToken scan t

/-- Go: `func (scan *Scanner) parseString()`. -/
def parseString (scan : Scanner) : Scanner :=
  let scan := stringLoop (scan.source.length - scan.current) scan
  if isAtEnd scan then LoxError scan scan.line "Unterminated string."
  else
    let scan := (advance scan).2
    let literal := LoxLiteral.LoxString (sliceStr scan.source (scan.start + 1) (scan.current - 1))
    addTokenAndLiteral scan .STRING literal

/-- Go: `func (scan *Scanner) scanToken()` (the switch is rendered as an
if-chain over the same disjoint cases).  `none` is a Go runtime panic,
propagated from `number`. -/
def scanToken (scan : Scanner) : Option Scanner :=
  match advance scan with
  | (char, scan) =>
    if char = '(' then some (addToken scan .LEFT_PAREN)
    else if char = ')' then some (addToken scan .RIGHT_PAREN)
    else if char = '\x7b' then some (addToken scan .LEFT_BRACE)
    else if char = '\x7d' then some (addToken scan .RIGHT_BRACE)
    else if char = ',' then some (addToken scan .COMMA)
    else if char = '.' then some (addToken scan .DOT)
    else if char = '-' then some (addToken scan .MINUS)
    else if char = '+' then some (addToken scan .PLUS)
    else if char = ';' then some (addToken scan .SEMICOLON)
    else if char = '*' then some (addToken scan .STAR)
    else if char = '!' then
      match matchChar scan '=' with
      | (m, scan) => some (addToken scan (if m then .BANG_EQUAL else .BANG))
    else if char = '=' then
      match matchChar scan '=' with
      | (m, scan) => some (addToken scan (if m then .EQUAL_EQUAL else .EQUAL))
    else if char = '<' then
      match matchChar scan '=' with
      | (m, scan) => some (addToken scan (if m then .LESS_EQUAL else .LESS))
    else if char = '>' then
      match matchChar scan '=' with
      | (m, scan) => some (addToken scan (if m then .GREATER_EQUAL else .GREATER))
    else if char = '/' then
      match matchChar scan '/' with
      | (m, scan) =>
        if m then some (commentLoop (scan.source.length - scan.current) scan)
        else some (addToken scan .SLASH)
    else if char = ' ' ∨ char = '\r' ∨ char = '\t' then some scan
    else if char = '\n' then some { scan with line := scan.line + 1 }
    else if char = '"' then some (parseString scan)
    else if isDigit char then number scan
    else if isAlpha char then some (identifier scan)
    else some (LoxError scan scan.line ("Unexpected character: " ++ String.singleton char))

/-- Result of running the scan loop: it can run out of fuel (never happens
with the fuel ScanTokens passes), hit a Go runtime panic, or complete with a
final scanner state. -/
inductive ScanOutcome where
  | fuelOut : ScanOutcome
  | panicked : ScanOutcome
  | done : Scanner → ScanOutcome
deriving DecidableEq, Repr

/-- The loop `for !scan.isAtEnd() { scan.start = scan.current; scan.scanToken() }`
of Scanner.ScanTokens.  Each completed scanToken advances `current` by at
least one, so the fuel `source.length + 1` passed by ScanTokens always
suffices. -/
def scanLoop : Nat → Scanner → ScanOutcome
  | 0, _ => .fuelOut
  | fuel + 1, scan =>
    if isAtEnd scan then .done scan
    else
      match scanToken { scan with start := scan.current } with
      | none => .panicked
      | some scan' => scanLoop fuel scan'

/-- Go: `func (scan *Scanner) ScanTokens() []Token`: runs the loop, then
appends the single EOF token (empty lexeme, empty literal, current line). -/
def ScanTokens (scan : Scanner) : ScanOutcome :=
  match scanLoop (scan.source.length + 1) scan with
  | .done scan =>
    .done { scan with tokens := scan.tokens ++
        [{ _type := .EOF, lexeme := "", literal := .LoxEmptyLiteral, line := scan.line }] }
  | r => r

/-- The token sequence returned by ScanTokens, if the scan completed. -/
def ScanOutcome.tokensOf : ScanOutcome → Option (List Token)
  | .done scan => some scan.tokens
  | _ => none

/-- ScanOutcome with the scanner state projected onto the Go struct fields. -/
inductive CoreOutcome where
  | fuelOut : CoreOutcome
  | panicked : CoreOutcome
  | done : ScanCore → CoreOutcome
deriving DecidableEq, Repr

/-- Projection of an outcome onto the Go Scanner struct fields. -/
def ScanOutcome.core : ScanOutcome → CoreOutcome
  | .fuelOut => .fuelOut
  | .panicked => .panicked
  | .done scan => .done scan.core

/-- Go: `func Run(source string)`: scans and prints one line per token on
stdout (`fmt.Printf("%s\n", &tok)`).  Returns the stdout lines and the final
state; `none` when the scan panicked (the process aborts). -/
def Run (source : List Char) : Option (List String × Scanner) :=
  match ScanTokens (NewScanner source) with
  | .done scan => some (scan.tokens.map Token.goString, scan)
  | _ => none

/-- The stdout lines printed by a `tokenize` run on the given file contents
(`none` when the scan panicked). -/
def RunOutput (source : List Char) : Option (List String) :=
  match Run source with
  | some (lines, _) => some lines
  | none => none

/-- The process exit code of `main` for `tokenize <file>` with the given file
contents: main runs RunFile and then exits 65 if hadError, else falls off
main (exit 0).  `none` when the scan panicked (Go aborts the process on the
uncaught panic instead of reaching the exit-code check). -/
def mainExitCode (source : List Char) : Option Nat :=
  match ScanTokens (NewScanner source) with
  | .done scan => some (if scan.hadError then 65 else 0)
  | _ => none

/-- The characters (bytes) of a source text. -/
def goStr (s : String) : List Char :=
  s.data

/-- The process-wide error flag is in sync with the diagnostics written so
far: it is true exactly when at least one diagnostic has been reported. -/
def FlagOK (scan : Scanner) : Prop :=
  scan.hadError = true ↔ scan.errors ≠ []

/-! ## List auxiliaries -/

theorem getD_append_cons (A : List Char) (b : Char) (B : List Char) (d : Char) :
    (A ++ b :: B).getD A.length d = b := by
  induction A with
  | nil => rfl
  | cons a A ih =>
    simp only [List.cons_append, List.length_cons, List.getD_cons_succ]
    exact ih

theorem slice_middle (pfx mid rest : List Char) :
    ((pfx ++ mid ++ rest).take (pfx.length + mid.length)).drop pfx.length = mid := by
  induction pfx with
  | nil =>
    simp only [List.nil_append, List.length_nil, Nat.zero_add, List.drop_zero]
    induction mid with
    | nil => simp
    | cons c mid ih =>
      simp only [List.cons_append, List.length_cons, List.take_succ_cons]
      simp [ih]
  | cons a pfx ih =>
    simp only [List.cons_append, List.length_cons, Nat.succ_add, List.take_succ_cons,
      List.drop_succ_cons]
    exact ih

/-! ## Positional facts about isAtEnd and peek -/

theorem isAtEnd_false_of (s : Scanner) (h : s.current < s.source.length) :
    isAtEnd s = false := by
  simp [isAtEnd]
  omega

theorem isAtEnd_true_of (s : Scanner) (h : s.source.length ≤ s.current) :
    isAtEnd s = true := by
  simp [isAtEnd]
  omega

theorem peek_eq (s : Scanner) (A : List Char) (b : Char) (B : List Char)
    (hsrc : s.source = A ++ b :: B) (hcur : s.current = A.length) : peek s = b := by
  have hlt : s.current < s.source.length := by
    rw [hsrc, hcur]
    simp
  rw [peek, isAtEnd_false_of s hlt]
  simp only [Bool.false_eq_true, if_false]
  rw [hsrc, hcur, getD_append_cons]

/-! ## Characterization of the string-literal loop -/

theorem stringLoop_no_quote (B : List Char) :
    ∀ (A : List Char) (s : Scanner) (fuel : Nat),
      s.source = A ++ B → s.current = A.length → '"' ∉ B → B.length ≤ fuel →
      stringLoop fuel s =
        { s with current := s.source.length, line := s.line + B.count '\n' } := by
  induction B with
  | nil =>
    intro A s fuel hsrc hcur _ _
    obtain ⟨src, tk, st, cur, ln, he, er⟩ := s
    dsimp only at hsrc hcur
    subst hsrc
    subst hcur
    have hed : isAtEnd ⟨A ++ [], tk, st, A.length, ln, he, er⟩ = true :=
      isAtEnd_true_of _ (by simp)
    cases fuel with
    | zero => simp [stringLoop]
    | succ n =>
      rw [stringLoop, hed]
      simp
  | cons b B ih =>
    intro A s fuel hsrc hcur hmem hfe
    obtain ⟨src, tk, st, cur, ln, he, er⟩ := s
    dsimp only at hsrc hcur
    subst hsrc
    subst hcur
    have hb : b ≠ '"' := fun hc => hmem (by simp [hc])
    have hmemB : '"' ∉ B := fun hc => hmem (by simp [hc])
    cases fuel with
    | zero => simp at hfe
    | succ n =>
      have hed : isAtEnd ⟨A ++ b :: B, tk, st, A.length, ln, he, er⟩ = false :=
        isAtEnd_false_of _ (by simp)
      have hpk : peek ⟨A ++ b :: B, tk, st, A.length, ln, he, er⟩ = b :=
        peek_eq _ A b B rfl rfl
      rw [stringLoop, hpk, hed]
      simp only [Bool.not_false, Bool.and_true]
      rw [if_pos (bne_iff_ne.mpr hb)]
      dsimp only [advance]
      have hrec := ih (A ++ [b])
      rw [show ((A ++ [b]) ++ B : List Char) = A ++ b :: B by simp] at hrec
      by_cases hnl : b = '\n'
      · rw [if_pos hnl]
        dsimp only
        rw [hrec ⟨A ++ b :: B, tk, st, A.length + 1, ln + 1, he, er⟩ n rfl
          (by simp) hmemB (by simpa using hfe)]
        simp [List.count_cons, hnl]
        omega
      · rw [if_neg hnl]
        dsimp only
        rw [hrec ⟨A ++ b :: B, tk, st, A.length + 1, ln, he, er⟩ n rfl
          (by simp) hmemB (by simpa using hfe)]
        simp [List.count_cons, hnl]

theorem stringLoop_finds_quote (pre : List Char) :
    ∀ (A rest : List Char) (s : Scanner) (fuel : Nat),
      s.source = A ++ pre ++ '"' :: rest → s.current = A.length → '"' ∉ pre →
      s.source.length - s.current ≤ fuel →
      stringLoop fuel s =
        { s with current := A.length + pre.length, line := s.line + pre.count '\n' } := by
  induction pre with
  | nil =>
    intro A rest s fuel hsrc hcur _ hfe
    obtain ⟨src, tk, st, cur, ln, he, er⟩ := s
    dsimp only at hsrc hcur hfe
    subst hsrc
    subst hcur
    cases fuel with
    | zero =>
      exfalso
      simp at hfe
    | succ n =>
      have hpk : peek ⟨A ++ [] ++ '"' :: rest, tk, st, A.length, ln, he, er⟩ = '"' :=
        peek_eq _ A '"' rest (by simp) rfl
      rw [stringLoop, hpk]
      simp
  | cons b pre ih =>
    intro A rest s fuel hsrc hcur hmem hfe
    obtain ⟨src, tk, st, cur, ln, he, er⟩ := s
    dsimp only at hsrc hcur hfe
    subst hsrc
    subst hcur
    have hb : b ≠ '"' := fun hc => hmem (by simp [hc])
    have hmemPre : '"' ∉ pre := fun hc => hmem (by simp [hc])
    cases fuel with
    | zero =>
      exfalso
      simp at hfe
    | succ n =>
      have hed : isAtEnd ⟨A ++ b :: pre ++ '"' :: rest, tk, st, A.length, ln, he, er⟩ = false :=
        isAtEnd_false_of _ (by simp)
      have hpk : peek ⟨A ++ b :: pre ++ '"' :: rest, tk, st, A.length, ln, he, er⟩ = b :=
        peek_eq _ A b (pre ++ '"' :: rest) (by simp) rfl
      rw [stringLoop, hpk, hed]
      simp only [Bool.not_false, Bool.and_true]
      rw [if_pos (bne_iff_ne.mpr hb)]
      dsimp only [advance]
      have hrec := ih (A ++ [b]) rest
      by_cases hnl : b = '\n'
      · rw [if_pos hnl]
        dsimp only
        rw [hrec ⟨A ++ b :: pre ++ '"' :: rest, tk, st, A.length + 1, ln + 1, he, er⟩ n
          (by simp) (by simp) hmemPre (by simp [List.length_append] at hfe ⊢; omega)]
        simp [List.count_cons, hnl]
        omega
      · rw [if_neg hnl]
        dsimp only
        rw [hrec ⟨A ++ b :: pre ++ '"' :: rest, tk, st, A.length + 1, ln, he, er⟩ n
          (by simp) (by simp) hmemPre (by simp [List.length_append] at hfe ⊢; omega)]
        simp [List.count_cons, hnl]
        omega

/-! ## Characterization of parseString -/

theorem parseString_unterminated (s : Scanner) (A B : List Char)
    (hsrc : s.source = A ++ B) (hcur : s.current = A.length) (hB : '"' ∉ B) :
    parseString s =
      { s with
        current := s.source.length,
        line := s.line + B.count '\n',
        hadError := true,
        errors := s.errors ++ [⟨s.line + B.count '\n', "", "Unterminated string."⟩] } := by
  have hloop := stringLoop_no_quote B A s (s.source.length - s.current) hsrc hcur hB
    (by rw [hsrc, hcur]; simp)
  rw [parseString, hloop]
  rw [if_pos (isAtEnd_true_of _ (by simp))]
  rfl

theorem parseString_terminated (s : Scanner) (pfx pre rest : List Char)
    (hsrc : s.source = pfx ++ '"' :: (pre ++ '"' :: rest))
    (hstart : s.start = pfx.length) (hcur : s.current = pfx.length + 1)
    (hpre : '"' ∉ pre) :
    parseString s =
      { s with
        current := pfx.length + pre.length + 2,
        line := s.line + pre.count '\n',
        tokens := s.tokens ++ [{
          _type := .STRING,
          lexeme := String.mk ('"' :: (pre ++ ['"'])),
          literal := .LoxString (String.mk pre),
          line := s.line + pre.count '\n' }] } := by
  have hsrc' : s.source = (pfx ++ ['"']) ++ pre ++ '"' :: rest := by
    rw [hsrc]
    simp
  have hloop := stringLoop_finds_quote pre (pfx ++ ['"']) rest s
    (s.source.length - s.current) hsrc' (by simp [hcur]) hpre (Nat.le_refl _)
  rw [parseString, hloop]
  have hlen : s.source.length = pfx.length + pre.length + rest.length + 2 := by
    rw [hsrc]
    simp [List.length_append]
    omega
  have hend : isAtEnd
      { s with current := (pfx ++ ['"']).length + pre.length, line := s.line + pre.count '\n' }
      = false := isAtEnd_false_of _ (by dsimp only; simp [hlen]; omega)
  rw [if_neg (by rw [hend]; simp)]
  dsimp only [advance]
  have hlit : sliceStr s.source (s.start + 1) ((pfx ++ ['"']).length + pre.length + 1 - 1)
      = String.mk pre := by
    rw [sliceStr, hsrc', hstart]
    have h1 : (pfx ++ ['"']).length + pre.length + 1 - 1 = (pfx ++ ['"']).length + pre.length := by
      omega
    rw [h1, show pfx.length + 1 = (pfx ++ ['"']).length by simp]
    rw [slice_middle (pfx ++ ['"']) pre ('"' :: rest)]
  have hlex : sliceStr s.source s.start ((pfx ++ ['"']).length + pre.length + 1)
      = String.mk ('"' :: (pre ++ ['"'])) := by
    rw [sliceStr, hsrc, hstart]
    have hre : pfx ++ '"' :: (pre ++ '"' :: rest)
        = pfx ++ ('"' :: (pre ++ ['"'])) ++ rest := by
      simp
    have hlen2 : (pfx ++ ['"']).length + pre.length + 1
        = pfx.length + ('"' :: (pre ++ ['"'])).length := by
      simp
      omega
    rw [hre, hlen2, slice_middle pfx ('"' :: (pre ++ ['"'])) rest]
  rw [addTokenAndLiteral]
  dsimp only
  rw [hlit, hlex]
  have hc2 : (pfx ++ ['"']).length + pre.length + 1 = pfx.length + pre.length + 2 := by
    simp
    omega
  rw [hc2]

/-! ## Characterization of the identifier loop and Scanner.identifier -/

theorem alphaNumLoop_consumes (w : List Char) :
    ∀ (A rest : List Char) (s : Scanner) (fuel : Nat),
      s.source = A ++ w ++ rest → s.current = A.length →
      (∀ c ∈ w, isAlphaNumeric c = true) →
      (∀ c ∈ rest.take 1, isAlphaNumeric c = false) →
      s.source.length - s.current ≤ fuel →
      alphaNumLoop fuel s = { s with current := A.length + w.length } := by
  induction w with
  | nil =>
    intro A rest s fuel hsrc hcur _ hrest _
    obtain ⟨src, tk, st, cur, ln, he, er⟩ := s
    dsimp only at hsrc hcur
    subst hsrc
    subst hcur
    have hstop : isAlphaNumeric (peek ⟨A ++ [] ++ rest, tk, st, A.length, ln, he, er⟩)
        = false := by
      cases rest with
      | nil =>
        have : peek ⟨A ++ [] ++ [], tk, st, A.length, ln, he, er⟩ = '\x00' := by
          rw [peek, isAtEnd_true_of _ (by simp)]
          simp
        rw [this]
        decide
      | cons r rest' =>
        have : peek ⟨A ++ [] ++ r :: rest', tk, st, A.length, ln, he, er⟩ = r :=
          peek_eq _ A r rest' (by simp) rfl
        rw [this]
        exact hrest r (by simp)
    cases fuel with
    | zero => simp [alphaNumLoop]
    | succ n =>
      rw [alphaNumLoop, hstop]
      simp
  | cons b w ih =>
    intro A rest s fuel hsrc hcur hw hrest hfe
    obtain ⟨src, tk, st, cur, ln, he, er⟩ := s
    dsimp only at hsrc hcur hfe
    subst hsrc
    subst hcur
    have hb : isAlphaNumeric b = true := hw b (by simp)
    have hpk : peek ⟨A ++ b :: w ++ rest, tk, st, A.length, ln, he, er⟩ = b :=
      peek_eq _ A b (w ++ rest) (by simp) rfl
    cases fuel with
    | zero =>
      exfalso
      simp at hfe
    | succ n =>
      rw [alphaNumLoop, hpk, hb]
      rw [if_pos rfl]
      dsimp only [advance]
      have hrec := ih (A ++ [b]) rest
        ⟨A ++ b :: w ++ rest, tk, st, A.length + 1, ln, he, er⟩ n
        (by simp) (by simp) (fun c hc => hw c (by simp [hc])) hrest
        (by simp [List.length_append] at hfe ⊢; omega)
      rw [hrec]
      simp
      omega

theorem identifier_spec (s : Scanner) (pfx : List Char) (c : Char) (w rest : List Char)
    (hsrc : s.source = pfx ++ c :: (w ++ rest))
    (hstart : s.start = pfx.length) (hcur : s.current = pfx.length + 1)
    (_hc : isAlpha c = true) (hw : ∀ x ∈ w, isAlphaNumeric x = true)
    (hrest : ∀ x ∈ rest.take 1, isAlphaNumeric x = false) :
    identifier s =
      { s with
        current := pfx.length + 1 + w.length,
        tokens := s.tokens ++ [{
          _type := (List.lookup (String.mk (c :: w)) keywords).getD .IDENTIFIER,
          lexeme := String.mk (c :: w),
          literal := .LoxEmptyLiteral,
          line := s.line }] } := by
  have hsrc' : s.source = (pfx ++ [c]) ++ w ++ rest := by
    rw [hsrc]
    simp
  have hloop := alphaNumLoop_consumes w (pfx ++ [c]) rest s
    (s.source.length - s.current) hsrc' (by simp [hcur]) hw hrest (Nat.le_refl _)
  have hlexeme : sliceStr s.source s.start ((pfx ++ [c]).length + w.length)
      = String.mk (c :: w) := by
    rw [sliceStr, hstart]
    have hre : s.source = pfx ++ (c :: w) ++ rest := by
      rw [hsrc]
      simp
    have hlen2 : (pfx ++ [c]).length + w.length = pfx.length + (c :: w).length := by
      simp
      omega
    rw [hre, hlen2, slice_middle pfx (c :: w) rest]
  rw [identifier, hloop]
  dsimp only
  rw [hlexeme]
  rw [addToken, addTokenAndLiteral]
  dsimp only
  rw [hlexeme]
  have hc2 : (pfx ++ [c]).length + w.length = pfx.length + 1 + w.length := by
    simp
  rw [hc2]
  cases List.lookup (String.mk (c :: w)) keywords <;> rfl

/-! ## The scanner core does not depend on the threaded global error state -/

theorem withGlobals_source (s : Scanner) (h : Bool) (e : List LoxDiag) :
    (withGlobals s h e).source = s.source := rfl

theorem withGlobals_current (s : Scanner) (h : Bool) (e : List LoxDiag) :
    (withGlobals s h e).current = s.current := rfl

theorem withGlobals_start (s : Scanner) (h : Bool) (e : List LoxDiag) :
    (withGlobals s h e).start = s.start := rfl

theorem core_withGlobals (s : Scanner) (h : Bool) (e : List LoxDiag) :
    (withGlobals s h e).core = s.core := rfl

theorem isAtEnd_withGlobals (s : Scanner) (h : Bool) (e : List LoxDiag) :
    isAtEnd (withGlobals s h e) = isAtEnd s := rfl

theorem peek_withGlobals (s : Scanner) (h : Bool) (e : List LoxDiag) :
    peek (withGlobals s h e) = peek s := rfl

theorem peekNext_withGlobals (s : Scanner) (h : Bool) (e : List LoxDiag) :
    peekNext (withGlobals s h e) = peekNext s := rfl

theorem advance_withGlobals (s : Scanner) (h : Bool) (e : List LoxDiag) :
    advance (withGlobals s h e) = ((advance s).1, withGlobals (advance s).2 h e) := rfl

theorem matchChar_withGlobals (s : Scanner) (h : Bool) (e : List LoxDiag) (x : Char) :
    matchChar (withGlobals s h e) x = ((matchChar s x).1, withGlobals (matchChar s x).2 h e) := by
  rw [matchChar, matchChar, isAtEnd_withGlobals, withGlobals_source, withGlobals_current]
  split_ifs <;> rfl

theorem addTokenAndLiteral_withGlobals (s : Scanner) (h : Bool) (e : List LoxDiag)
    (t : TokenType) (l : LoxLiteral) :
    addTokenAndLiteral (withGlobals s h e) t l = withGlobals (addTokenAndLiteral s t l) h e := rfl

theorem addToken_withGlobals (s : Scanner) (h : Bool) (e : List LoxDiag) (t : TokenType) :
    addToken (withGlobals s h e) t = withGlobals (addToken s t) h e := rfl

theorem digitsLoop_withGlobals (fuel : Nat) :
    ∀ (s : Scanner) (h : Bool) (e : List LoxDiag),
      digitsLoop fuel (withGlobals s h e) = withGlobals (digitsLoop fuel s) h e := by
  induction fuel with
  | zero => intro s h e; rfl
  | succ n ih =>
    intro s h e
    rw [digitsLoop, digitsLoop, peek_withGlobals]
    by_cases hd : isDigit (peek s) = true
    · rw [if_pos hd, if_pos hd, advance_withGlobals, ih]
    · rw [if_neg hd, if_neg hd]

theorem alphaNumLoop_withGlobals (fuel : Nat) :
    ∀ (s : Scanner) (h : Bool) (e : List LoxDiag),
      alphaNumLoop fuel (withGlobals s h e) = withGlobals (alphaNumLoop fuel s) h e := by
  induction fuel with
  | zero => intro s h e; rfl
  | succ n ih =>
    intro s h e
    rw [alphaNumLoop, alphaNumLoop, peek_withGlobals]
    by_cases hd : isAlphaNumeric (peek s) = true
    · rw [if_pos hd, if_pos hd, advance_withGlobals, ih]
    · rw [if_neg hd, if_neg hd]

theorem commentLoop_withGlobals (fuel : Nat) :
    ∀ (s : Scanner) (h : Bool) (e : List LoxDiag),
      commentLoop fuel (withGlobals s h e) = withGlobals (commentLoop fuel s) h e := by
  induction fuel with
  | zero => intro s h e; rfl
  | succ n ih =>
    intro s h e
    rw [commentLoop, commentLoop, peek_withGlobals, isAtEnd_withGlobals]
    by_cases hd : (peek s != '\n' && !(isAtEnd s)) = true
    · rw [if_pos hd, if_pos hd, advance_withGlobals, ih]
    · rw [if_neg hd, if_neg hd]

theorem stringLoop_withGlobals (fuel : Nat) :
    ∀ (s : Scanner) (h : Bool) (e : List LoxDiag),
      stringLoop fuel (withGlobals s h e) = withGlobals (stringLoop fuel s) h e := by
  induction fuel with
  | zero => intro s h e; rfl
  | succ n ih =>
    intro s h e
    rw [stringLoop, stringLoop, peek_withGlobals, isAtEnd_withGlobals]
    by_cases hd : (peek s != '"' && !(isAtEnd s)) = true
    · rw [if_pos hd, if_pos hd]
      have hbump : ({ withGlobals s h e with line := (withGlobals s h e).line + 1 } : Scanner)
          = withGlobals { s with line := s.line + 1 } h e := rfl
      by_cases hnl : peek s = '\n'
      · rw [if_pos hnl, if_pos hnl, hbump]
        simp only [advance_withGlobals, ih]
      · rw [if_neg hnl, if_neg hnl]
        simp only [advance_withGlobals, ih]
    · rw [if_neg hd, if_neg hd]

theorem number_withGlobals (s : Scanner) (h : Bool) (e : List LoxDiag) :
    number (withGlobals s h e) = (number s).map (fun x => withGlobals x h e) := by
  rw [number, number]
  simp only [withGlobals_source, withGlobals_current, withGlobals_start,
    digitsLoop_withGlobals, peek_withGlobals, peekNext_withGlobals, advance_withGlobals,
    addTokenAndLiteral_withGlobals]
  by_cases hdot : peek (digitsLoop (s.source.length - s.current) s) = '.'
  · rw [if_pos hdot, if_pos hdot]
    cases hpn : peekNext (digitsLoop (s.source.length - s.current) s) with
    | none => simp [hpn]
    | some ch =>
      simp only [hpn]
      by_cases hd : isDigit ch = true
      · rw [if_pos hd, if_pos hd]
        rfl
      · rw [if_neg hd, if_neg hd]
        rfl
  · rw [if_neg hdot, if_neg hdot]
    rfl

theorem identifier_withGlobals (s : Scanner) (h : Bool) (e : List LoxDiag) :
    identifier (withGlobals s h e) = withGlobals (identifier s) h e := by
  rw [identifier, identifier]
  simp only [withGlobals_source, withGlobals_current, withGlobals_start,
    alphaNumLoop_withGlobals, addToken_withGlobals]

theorem LoxReport_core (s : Scanner) (line : Nat) (whereArg message : String) :
    (LoxReport s line whereArg message).core = s.core := rfl

theorem LoxError_core (s : Scanner) (line : Nat) (message : String) :
    (LoxError s line message).core = s.core := rfl

theorem withGlobals_tokens (s : Scanner) (h : Bool) (e : List LoxDiag) :
    (withGlobals s h e).tokens = s.tokens := rfl

theorem withGlobals_line (s : Scanner) (h : Bool) (e : List LoxDiag) :
    (withGlobals s h e).line = s.line := rfl

theorem withGlobals_hadError (s : Scanner) (h : Bool) (e : List LoxDiag) :
    (withGlobals s h e).hadError = h := rfl

theorem withGlobals_errors (s : Scanner) (h : Bool) (e : List LoxDiag) :
    (withGlobals s h e).errors = e := rfl

theorem core_mk (src : List Char) (tk : List Token) (st cur ln : Nat) (he : Bool)
    (er : List LoxDiag) :
    (Scanner.mk src tk st cur ln he er).core = ScanCore.mk src tk st cur ln := rfl

theorem parseString_core_withGlobals (s : Scanner) (h : Bool) (e : List LoxDiag) :
    (parseString (withGlobals s h e)).core = (parseString s).core := by
  rw [parseString, parseString]
  simp only [withGlobals_source, withGlobals_current, withGlobals_start,
    stringLoop_withGlobals, isAtEnd_withGlobals, advance_withGlobals]
  by_cases hend : isAtEnd (stringLoop (s.source.length - s.current) s) = true
  · rw [if_pos hend, if_pos hend]
    rfl
  · rw [if_neg hend, if_neg hend]
    simp only [withGlobals_source, withGlobals_current, withGlobals_start,
      addTokenAndLiteral_withGlobals]
    rfl

theorem core_comp_withGlobals (h : Bool) (e : List LoxDiag) :
    (Scanner.core ∘ fun x => withGlobals x h e) = Scanner.core := by
  funext x
  exact core_withGlobals x h e

theorem scanToken_core_withGlobals (s : Scanner) (h : Bool) (e : List LoxDiag) :
    (scanToken (withGlobals s h e)).map Scanner.core = (scanToken s).map Scanner.core := by
  rw [scanToken, scanToken, advance_withGlobals]
  dsimp only
  simp only [matchChar_withGlobals]
  try dsimp only
  simp only [apply_ite (Option.map Scanner.core), Option.map_some', Option.map_map,
    withGlobals_source, withGlobals_current, withGlobals_line, withGlobals_tokens,
    withGlobals_start, addToken_withGlobals, commentLoop_withGlobals, identifier_withGlobals,
    number_withGlobals, core_comp_withGlobals, parseString_core_withGlobals,
    LoxError_core, core_withGlobals, core_mk]

theorem core_fields (s₁ s₂ : Scanner) (hq : s₁.core = s₂.core) :
    s₁.source = s₂.source ∧ s₁.tokens = s₂.tokens ∧ s₁.start = s₂.start ∧
      s₁.current = s₂.current ∧ s₁.line = s₂.line := by
  obtain ⟨src₁, tk₁, st₁, cur₁, ln₁, he₁, er₁⟩ := s₁
  obtain ⟨src₂, tk₂, st₂, cur₂, ln₂, he₂, er₂⟩ := s₂
  simp only [Scanner.core, ScanCore.mk.injEq] at hq
  exact ⟨hq.1, hq.2.1, hq.2.2.1, hq.2.2.2.1, hq.2.2.2.2⟩

theorem eq_withGlobals_of_core_eq (s₁ s₂ : Scanner) (hq : s₁.core = s₂.core) :
    s₂ = withGlobals s₁ s₂.hadError s₂.errors := by
  obtain ⟨h1, h2, h3, h4, h5⟩ := core_fields s₁ s₂ hq
  obtain ⟨src₁, tk₁, st₁, cur₁, ln₁, he₁, er₁⟩ := s₁
  obtain ⟨src₂, tk₂, st₂, cur₂, ln₂, he₂, er₂⟩ := s₂
  dsimp only at h1 h2 h3 h4 h5
  subst h1
  subst h2
  subst h3
  subst h4
  subst h5
  rfl

theorem scanToken_core_congr (s₁ s₂ : Scanner) (hq : s₁.core = s₂.core) :
    (scanToken s₁).map Scanner.core = (scanToken s₂).map Scanner.core := by
  rw [eq_withGlobals_of_core_eq s₁ s₂ hq, scanToken_core_withGlobals]

theorem isAtEnd_core_congr (s₁ s₂ : Scanner) (hq : s₁.core = s₂.core) :
    isAtEnd s₁ = isAtEnd s₂ := by
  obtain ⟨h1, _, _, h4, _⟩ := core_fields s₁ s₂ hq
  rw [isAtEnd, isAtEnd, h1, h4]

theorem setStart_core_congr (s₁ s₂ : Scanner) (hq : s₁.core = s₂.core) :
    ({ s₁ with start := s₁.current } : Scanner).core
      = ({ s₂ with start := s₂.current } : Scanner).core := by
  obtain ⟨h1, h2, h3, h4, h5⟩ := core_fields s₁ s₂ hq
  obtain ⟨src₁, tk₁, st₁, cur₁, ln₁, he₁, er₁⟩ := s₁
  obtain ⟨src₂, tk₂, st₂, cur₂, ln₂, he₂, er₂⟩ := s₂
  dsimp only at h1 h2 h3 h4 h5
  rw [Scanner.core, Scanner.core]
  dsimp only
  rw [h1, h2, h4, h5]

theorem scanLoop_core_congr (fuel : Nat) :
    ∀ (s₁ s₂ : Scanner), s₁.core = s₂.core →
      (scanLoop fuel s₁).core = (scanLoop fuel s₂).core := by
  induction fuel with
  | zero => intro s₁ s₂ _; rfl
  | succ n ih =>
    intro s₁ s₂ hq
    rw [scanLoop, scanLoop, isAtEnd_core_congr s₁ s₂ hq]
    by_cases hend : isAtEnd s₂ = true
    · rw [if_pos hend, if_pos hend]
      simp only [ScanOutcome.core, Scanner.core]
      obtain ⟨h1, h2, h3, h4, h5⟩ := core_fields s₁ s₂ hq
      rw [h1, h2, h3, h4, h5]
    · rw [if_neg hend, if_neg hend]
      have hmap := scanToken_core_congr _ _ (setStart_core_congr s₁ s₂ hq)
      cases ha : scanToken { s₁ with start := s₁.current } with
      | none =>
        cases hb : scanToken { s₂ with start := s₂.current } with
        | none => rfl
        | some x =>
          rw [ha, hb] at hmap
          simp at hmap
      | some x₁ =>
        cases hb : scanToken { s₂ with start := s₂.current } with
        | none =>
          rw [ha, hb] at hmap
          simp at hmap
        | some x₂ =>
          rw [ha, hb] at hmap
          simp only [Option.map_some', Option.some.injEq] at hmap
          exact ih x₁ x₂ hmap

theorem ScanTokens_core_congr (s₁ s₂ : Scanner) (hq : s₁.core = s₂.core) :
    (ScanTokens s₁).core = (ScanTokens s₂).core := by
  obtain ⟨h1, _, _, _, _⟩ := core_fields s₁ s₂ hq
  rw [ScanTokens, ScanTokens, h1]
  have hloop := scanLoop_core_congr (s₂.source.length + 1) s₁ s₂ hq
  cases ha : scanLoop (s₂.source.length + 1) s₁ with
  | fuelOut =>
    cases hb : scanLoop (s₂.source.length + 1) s₂ with
    | fuelOut => rfl
    | panicked => rw [ha, hb] at hloop; simp [ScanOutcome.core] at hloop
    | done y => rw [ha, hb] at hloop; simp [ScanOutcome.core] at hloop
  | panicked =>
    cases hb : scanLoop (s₂.source.length + 1) s₂ with
    | fuelOut => rw [ha, hb] at hloop; simp [ScanOutcome.core] at hloop
    | panicked => rfl
    | done y => rw [ha, hb] at hloop; simp [ScanOutcome.core] at hloop
  | done x =>
    cases hb : scanLoop (s₂.source.length + 1) s₂ with
    | fuelOut => rw [ha, hb] at hloop; simp [ScanOutcome.core] at hloop
    | panicked => rw [ha, hb] at hloop; simp [ScanOutcome.core] at hloop
    | done y =>
      rw [ha, hb] at hloop
      simp only [ScanOutcome.core, CoreOutcome.done.injEq] at hloop
      obtain ⟨g1, g2, g3, g4, g5⟩ := core_fields x y hloop
      simp only [ScanOutcome.core, CoreOutcome.done.injEq, Scanner.core]
      try dsimp only
      rw [g1, g2, g3, g4, g5]

theorem tokensOf_of_core_congr (o₁ o₂ : ScanOutcome) (hq : o₁.core = o₂.core) :
    o₁.tokensOf = o₂.tokensOf := by
  cases o₁ with
  | fuelOut =>
    cases o₂ with
    | fuelOut => rfl
    | panicked => exfalso; simp [ScanOutcome.core] at hq
    | done y => exfalso; simp [ScanOutcome.core] at hq
  | panicked =>
    cases o₂ with
    | fuelOut => exfalso; simp [ScanOutcome.core] at hq
    | panicked => rfl
    | done y => exfalso; simp [ScanOutcome.core] at hq
  | done x =>
    cases o₂ with
    | fuelOut => exfalso; simp [ScanOutcome.core] at hq
    | panicked => exfalso; simp [ScanOutcome.core] at hq
    | done y =>
      simp only [ScanOutcome.core, CoreOutcome.done.injEq] at hq
      simp only [ScanOutcome.tokensOf, Option.some.injEq]
      exact (core_fields x y hq).2.1

/-! ## Evolution of the process-wide error state during the scan -/

theorem withGlobals_self (s : Scanner) : withGlobals s s.hadError s.errors = s := rfl

theorem globals_of_commute {f : Scanner → Scanner}
    (hf : ∀ s h e, f (withGlobals s h e) = withGlobals (f s) h e) (s : Scanner) :
    (f s).hadError = s.hadError ∧ (f s).errors = s.errors := by
  have h := hf s s.hadError s.errors
  rw [withGlobals_self] at h
  constructor
  · conv_lhs => rw [h]
    rfl
  · conv_lhs => rw [h]
    rfl

theorem matchChar_globals (s : Scanner) (c : Char) :
    (matchChar s c).2.hadError = s.hadError ∧ (matchChar s c).2.errors = s.errors := by
  rw [matchChar]
  split_ifs <;> exact ⟨rfl, rfl⟩

theorem number_globals (s s' : Scanner) (h : number s = some s') :
    s'.hadError = s.hadError ∧ s'.errors = s.errors := by
  have hw := number_withGlobals s s.hadError s.errors
  rw [withGlobals_self, h] at hw
  simp only [Option.map_some', Option.some.injEq] at hw
  constructor
  · conv_lhs => rw [hw]
    rfl
  · conv_lhs => rw [hw]
    rfl

/-- How parseString can change the threaded global error state: either the
string is terminated (nothing reported), or exactly one "Unterminated
string." diagnostic is appended and the flag is set. -/
theorem parseString_globals (x : Scanner) :
    ((parseString x).hadError = x.hadError ∧ (parseString x).errors = x.errors)
    ∨ ((parseString x).hadError = true ∧ ∃ d, (parseString x).errors = x.errors ++ [d]) := by
  rw [parseString]
  by_cases hend : isAtEnd (stringLoop (x.source.length - x.current) x) = true
  · rw [if_pos hend]
    right
    refine ⟨rfl, ⟨⟨(stringLoop (x.source.length - x.current) x).line, "",
      "Unterminated string."⟩, ?_⟩⟩
    show (stringLoop (x.source.length - x.current) x).errors ++ _ = x.errors ++ _
    rw [(globals_of_commute (stringLoop_withGlobals _) x).2]
  · rw [if_neg hend]
    left
    constructor
    · show (stringLoop (x.source.length - x.current) x).hadError = x.hadError
      exact (globals_of_commute (stringLoop_withGlobals _) x).1
    · show (stringLoop (x.source.length - x.current) x).errors = x.errors
      exact (globals_of_commute (stringLoop_withGlobals _) x).2

/-- How one scanToken step can change the threaded global error state: either
it reports nothing (flag and diagnostics unchanged), or it reports exactly one
diagnostic (appended to the stream) and the flag is set. -/
theorem scanToken_globals (s s1 : Scanner) (h : scanToken s = some s1) :
    (s1.hadError = s.hadError ∧ s1.errors = s.errors)
    ∨ (s1.hadError = true ∧ ∃ d, s1.errors = s.errors ++ [d]) := by
  rcases hadv : advance s with ⟨ch, sc⟩
  have h2 : (advance s).2 = sc := by rw [hadv]
  have hh : s.hadError = sc.hadError := by rw [← h2]; rfl
  have he : s.errors = sc.errors := by rw [← h2]; rfl
  rw [scanToken, hadv] at h
  dsimp only at h
  rw [hh, he]
  by_cases t1 : ch = '('
  · rw [if_pos t1] at h
    simp only [Option.some.injEq] at h
    subst h
    left
    exact ⟨rfl, rfl⟩
  rw [if_neg t1] at h
  by_cases t2 : ch = ')'
  · rw [if_pos t2] at h
    simp only [Option.some.injEq] at h
    subst h
    left
    exact ⟨rfl, rfl⟩
  rw [if_neg t2] at h
  by_cases t3 : ch = '\x7b'
  · rw [if_pos t3] at h
    simp only [Option.some.injEq] at h
    subst h
    left
    exact ⟨rfl, rfl⟩
  rw [if_neg t3] at h
  by_cases t4 : ch = '\x7d'
  · rw [if_pos t4] at h
    simp only [Option.some.injEq] at h
    subst h
    left
    exact ⟨rfl, rfl⟩
  rw [if_neg t4] at h
  by_cases t5 : ch = ','
  · rw [if_pos t5] at h
    simp only [Option.some.injEq] at h
    subst h
    left
    exact ⟨rfl, rfl⟩
  rw [if_neg t5] at h
  by_cases t6 : ch = '.'
  · rw [if_pos t6] at h
    simp only [Option.some.injEq] at h
    subst h
    left
    exact ⟨rfl, rfl⟩
  rw [if_neg t6] at h
  by_cases t7 : ch = '-'
  · rw [if_pos t7] at h
    simp only [Option.some.injEq] at h
    subst h
    left
    exact ⟨rfl, rfl⟩
  rw [if_neg t7] at h
  by_cases t8 : ch = '+'
  · rw [if_pos t8] at h
    simp only [Option.some.injEq] at h
    subst h
    left
    exact ⟨rfl, rfl⟩
  rw [if_neg t8] at h
  by_cases t9 : ch = ';'
  · rw [if_pos t9] at h
    simp only [Option.some.injEq] at h
    subst h
    left
    exact ⟨rfl, rfl⟩
  rw [if_neg t9] at h
  by_cases t10 : ch = '*'
  · rw [if_pos t10] at h
    simp only [Option.some.injEq] at h
    subst h
    left
    exact ⟨rfl, rfl⟩
  rw [if_neg t10] at h
  by_cases t11 : ch = '!'
  · rw [if_pos t11] at h
    simp only [Option.some.injEq] at h
    subst h
    left
    exact ⟨(matchChar_globals _ _).1, (matchChar_globals _ _).2⟩
  rw [if_neg t11] at h
  by_cases t12 : ch = '='
  · rw [if_pos t12] at h
    simp only [Option.some.injEq] at h
    subst h
    left
    exact ⟨(matchChar_globals _ _).1, (matchChar_globals _ _).2⟩
  rw [if_neg t12] at h
  by_cases t13 : ch = '<'
  · rw [if_pos t13] at h
    simp only [Option.some.injEq] at h
    subst h
    left
    exact ⟨(matchChar_globals _ _).1, (matchChar_globals _ _).2⟩
  rw [if_neg t13] at h
  by_cases t14 : ch = '>'
  · rw [if_pos t14] at h
    simp only [Option.some.injEq] at h
    subst h
    left
    exact ⟨(matchChar_globals _ _).1, (matchChar_globals _ _).2⟩
  rw [if_neg t14] at h
  by_cases t15 : ch = '/'
  · rw [if_pos t15] at h
    by_cases tm : (matchChar sc '/').1 = true
    · rw [if_pos tm] at h
      simp only [Option.some.injEq] at h
      subst h
      left
      exact ⟨(globals_of_commute (commentLoop_withGlobals _) _).1.trans
          (matchChar_globals _ _).1,
        (globals_of_commute (commentLoop_withGlobals _) _).2.trans
          (matchChar_globals _ _).2⟩
    · rw [if_neg tm] at h
      simp only [Option.some.injEq] at h
      subst h
      left
      exact ⟨(matchChar_globals _ _).1, (matchChar_globals _ _).2⟩
  rw [if_neg t15] at h
  by_cases t16 : ch = ' ' ∨ ch = '\x0d' ∨ ch = '\t'
  · rw [if_pos t16] at h
    simp only [Option.some.injEq] at h
    subst h
    left
    exact ⟨rfl, rfl⟩
  rw [if_neg t16] at h
  by_cases t17 : ch = '\n'
  · rw [if_pos t17] at h
    simp only [Option.some.injEq] at h
    subst h
    left
    exact ⟨rfl, rfl⟩
  rw [if_neg t17] at h
  by_cases t18 : ch = '"'
  · rw [if_pos t18] at h
    simp only [Option.some.injEq] at h
    subst h
    rcases parseString_globals sc with ⟨h1, h2⟩ | ⟨h1, h2⟩
    · left
      exact ⟨h1, h2⟩
    · right
      exact ⟨h1, h2⟩
  rw [if_neg t18] at h
  by_cases t19 : isDigit ch = true
  · rw [if_pos t19] at h
    left
    exact number_globals sc s1 h
  rw [if_neg t19] at h
  by_cases t20 : isAlpha ch = true
  · rw [if_pos t20] at h
    simp only [Option.some.injEq] at h
    subst h
    left
    exact globals_of_commute identifier_withGlobals sc
  rw [if_neg t20] at h
  simp only [Option.some.injEq] at h
  subst h
  right
  exact ⟨rfl, ⟨_, rfl⟩⟩

theorem scanLoop_globals (fuel : Nat) :
    ∀ (s s1 : Scanner), scanLoop fuel s = .done s1 →
      (s.hadError = true → s1.hadError = true) ∧ (FlagOK s → FlagOK s1) := by
  induction fuel with
  | zero =>
    intro s s1 h
    exact absurd h (by simp [scanLoop])
  | succ n ih =>
    intro s s1 h
    rw [scanLoop] at h
    by_cases hend : isAtEnd s = true
    · rw [if_pos hend] at h
      simp only [ScanOutcome.done.injEq] at h
      subst h
      exact ⟨id, id⟩
    · rw [if_neg hend] at h
      cases hst : scanToken { s with start := s.current } with
      | none =>
        rw [hst] at h
        exact absurd h (by simp)
      | some s2 =>
        rw [hst] at h
        have hrec := ih s2 s1 h
        rcases scanToken_globals _ _ hst with ⟨g1, g2⟩ | ⟨g1, g2⟩
        · constructor
          · intro hs
            exact hrec.1 (by rw [g1]; exact hs)
          · intro hf
            refine hrec.2 ?_
            rw [FlagOK] at hf ⊢
            rw [g1, g2]
            exact hf
        · obtain ⟨d, hd⟩ := g2
          constructor
          · intro _
            exact hrec.1 g1
          · intro _
            refine hrec.2 ?_
            rw [FlagOK, g1, hd]
            simp

theorem ScanTokens_done_inv (s s1 : Scanner) (h : ScanTokens s = .done s1) :
    ∃ s0, scanLoop (s.source.length + 1) s = .done s0 ∧
      s1 = { s0 with tokens := s0.tokens ++
        [{ _type := .EOF, lexeme := "", literal := .LoxEmptyLiteral, line := s0.line }] } := by
  rw [ScanTokens] at h
  cases hl : scanLoop (s.source.length + 1) s with
  | fuelOut =>
    rw [hl] at h
    exact absurd h (by simp)
  | panicked =>
    rw [hl] at h
    exact absurd h (by simp)
  | done s0 =>
    rw [hl] at h
    simp only [ScanOutcome.done.injEq] at h
    exact ⟨s0, rfl, h.symm⟩

theorem ScanTokens_globals (s s1 : Scanner) (h : ScanTokens s = .done s1) :
    (s.hadError = true → s1.hadError = true) ∧ (FlagOK s → FlagOK s1) := by
  obtain ⟨s0, hl, hs1⟩ := ScanTokens_done_inv s s1 h
  have hg := scanLoop_globals _ s s0 hl
  subst hs1
  exact hg

theorem FlagOK_NewScanner (src : List Char) : FlagOK (NewScanner src) := by
  rw [FlagOK]
  simp [NewScanner, NewScannerFrom]

/-! ## Claims -/

/-- C1: the spec claims ScanTokens never fails by raising on any input.  The
code violates this: on the source "1." the digit run is followed by a '.'
that is the last character, peekNext's bound check uses `current+1 > len`
instead of `≥`, `source[len(source)]` is evaluated, and the Go runtime
panics with an index-out-of-range error before any token stream is
returned. -/
theorem c1_scan_raises_on_trailing_dot :
    ScanTokens (NewScanner (goStr "1.")) = .panicked := by
  rfl

/-- C2: the spec claims the driver's final printed line is exactly the text
EOF followed by two spaces and null.  The code violates this: TokenType has
no String method, so fmt's %s verb renders the bad-verb form, and already on
the empty source the single printed line is "%!s(main.TokenType=38)  null",
which differs from "EOF  null". -/
theorem c2_token_dump_last_line_not_eof_null :
    RunOutput (goStr "") = some ["%!s(main.TokenType=38)  null"]
    ∧ "%!s(main.TokenType=38)  null" ≠ "EOF  null" := by
  exact ⟨rfl, by decide⟩

/-- C3: the spec claims every scan terminates and returns a sequence ending
in exactly one EOF token.  On the source "1." the code raises instead (see
C1) and no token sequence is returned at all; on inputs where the scan does
complete (e.g. the empty source) the sequence does end with the single EOF
token whose line is the final line count. -/
theorem c3_returned_sequence_missing_on_trailing_dot :
    (ScanTokens (NewScanner (goStr "1."))).tokensOf = none
    ∧ (ScanTokens (NewScanner (goStr ""))).tokensOf
        = some [⟨.EOF, "", .LoxEmptyLiteral, 1⟩] := by
  exact ⟨rfl, rfl⟩

/-- C4: the spec claims a digit run followed by '.' with no digit after it
always yields a NUMBER token followed by a DOT token.  That holds when some
character follows the '.' (e.g. "1.;"), but when the '.' is the last
character of the input ("12.") the code panics in peekNext instead of
producing the two tokens. -/
theorem c4_trailing_dot_number_panics_not_number_then_dot :
    ScanTokens (NewScanner (goStr "12.")) = .panicked
    ∧ (ScanTokens (NewScanner (goStr "1.;"))).tokensOf = some
        [⟨.NUMBER, "1", .LoxNumber ⟨"1"⟩, 1⟩,
         ⟨.DOT, ".", .LoxEmptyLiteral, 1⟩,
         ⟨.SEMICOLON, ";", .LoxEmptyLiteral, 1⟩,
         ⟨.EOF, "", .LoxEmptyLiteral, 1⟩] := by
  exact ⟨rfl, rfl⟩

/-- C5: for every string literal that closes before end of input (source =
prefix, opening quote, payload without quotes, closing quote, rest; the
scanner has consumed the opening quote), parseString consumes up to the
closing quote and emits one STRING token whose literal value is exactly the
payload strictly between the quotes and whose lexeme is the full quoted form
including both quote characters. -/
theorem c5_terminated_string_literal_between_quotes (s : Scanner)
    (pfx pre rest : List Char)
    (hsrc : s.source = pfx ++ '"' :: (pre ++ '"' :: rest))
    (hstart : s.start = pfx.length) (hcur : s.current = pfx.length + 1)
    (hpre : '"' ∉ pre) :
    parseString s =
      { s with
        current := pfx.length + pre.length + 2,
        line := s.line + pre.count '\n',
        tokens := s.tokens ++ [{
          _type := .STRING,
          lexeme := String.mk ('"' :: (pre ++ ['"'])),
          literal := .LoxString (String.mk pre),
          line := s.line + pre.count '\n' }] } :=
  parseString_terminated s pfx pre rest hsrc hstart hcur hpre

/-- Witness for C5: scanning the body of the literal "ab" (opening quote at
index 0, cursor just past it) emits STRING with payload "ab" and lexeme
including the quotes. -/
theorem c5_terminated_string_literal_between_quotes_witness :
    parseString ⟨goStr "\"ab\"", [], 0, 1, 1, false, []⟩
      = ⟨goStr "\"ab\"", [⟨.STRING, "\"ab\"", .LoxString "ab", 1⟩], 0, 4, 1, false, []⟩ := by
  rw [c5_terminated_string_literal_between_quotes
    ⟨goStr "\"ab\"", [], 0, 1, 1, false, []⟩ [] ['a', 'b'] []
    (by decide) (by decide) (by decide) (by decide)]
  rfl

/-- C6: reaching end of input inside a string literal emits no STRING token,
appends exactly one diagnostic whose message is "Unterminated string." with
the line counter already advanced once per embedded newline, and sets the
error flag; and any run whose scan completes having reported at least one
diagnostic exits with process exit code 65. -/
theorem c6_unterminated_string_error_and_exit :
    (∀ (s : Scanner) (A B : List Char),
      s.source = A ++ B → s.current = A.length → '"' ∉ B →
      parseString s =
        { s with
          current := s.source.length,
          line := s.line + B.count '\n',
          hadError := true,
          errors := s.errors ++ [⟨s.line + B.count '\n', "", "Unterminated string."⟩] })
    ∧ (∀ (src : List Char) (s : Scanner),
        ScanTokens (NewScanner src) = .done s → s.errors ≠ [] →
        mainExitCode src = some 65) := by
  constructor
  · exact parseString_unterminated
  · intro src s h hne
    have hg := (ScanTokens_globals _ _ h).2 (FlagOK_NewScanner src)
    rw [FlagOK] at hg
    rw [mainExitCode, h]
    simp [hg.mpr hne]

/-- Witness for C6: scanning past the opening quote of the unterminated
"a-newline-b" source reports one "Unterminated string." diagnostic on line 2
and no token; the full run on an unterminated string exits with 65. -/
theorem c6_unterminated_string_error_and_exit_witness :
    parseString ⟨goStr "\"a\nb", [], 0, 1, 1, false, []⟩
      = ⟨goStr "\"a\nb", [], 0, 4, 2, true, [⟨2, "", "Unterminated string."⟩]⟩
    ∧ mainExitCode (goStr "\"ab") = some 65 := by
  constructor
  · rw [c6_unterminated_string_error_and_exit.1
      ⟨goStr "\"a\nb", [], 0, 1, 1, false, []⟩ ['"'] ['a', '\n', 'b']
      (by decide) (by decide) (by decide)]
    rfl
  · exact c6_unterminated_string_error_and_exit.2 (goStr "\"ab")
      ⟨goStr "\"ab", [⟨.EOF, "", .LoxEmptyLiteral, 1⟩], 0, 3, 1, true,
        [⟨1, "", "Unterminated string."⟩]⟩
      (by rfl) (by decide)

/-- C7: the process-wide error flag starts false, is set to true by every
reported diagnostic, is never reset by a scan step, and when the scan
completes the flag agrees with "some diagnostic was reported" and the
process exits with 65 when it is set and 0 otherwise. -/
theorem c7_had_error_flag_lifecycle_and_exit_codes :
    (∀ src : List Char, (NewScanner src).hadError = false)
    ∧ (∀ (s : Scanner) (line : Nat) (whereArg message : String),
        (LoxReport s line whereArg message).hadError = true)
    ∧ (∀ s s1 : Scanner, scanToken s = some s1 → s.hadError = true → s1.hadError = true)
    ∧ (∀ (src : List Char) (s : Scanner), ScanTokens (NewScanner src) = .done s →
        (s.hadError = true ↔ s.errors ≠ [])
        ∧ mainExitCode src = some (if s.hadError then 65 else 0)) := by
  refine ⟨fun _ => rfl, fun _ _ _ _ => rfl, ?_, ?_⟩
  · intro s s1 h hs
    rcases scanToken_globals s s1 h with ⟨g1, _⟩ | ⟨g1, _⟩
    · rw [g1]
      exact hs
    · exact g1
  · intro src s h
    refine ⟨?_, ?_⟩
    · have hg := (ScanTokens_globals _ _ h).2 (FlagOK_NewScanner src)
      rw [FlagOK] at hg
      exact hg
    · rw [mainExitCode, h]

/-- Witness for C7: the flag is false at scanner creation, true after a
report, survives a scan step, and on "@" (one unexpected-character error) the
completed scan has the flag set, a nonempty diagnostic list, and exit code
65. -/
theorem c7_had_error_flag_lifecycle_and_exit_codes_witness :
    (NewScanner (goStr "@")).hadError = false
    ∧ (LoxReport ⟨[], [], 0, 0, 1, false, []⟩ 1 "" "m").hadError = true
    ∧ (⟨['+'], [⟨.PLUS, "+", .LoxEmptyLiteral, 1⟩], 0, 1, 1, true,
        [⟨1, "", "x"⟩]⟩ : Scanner).hadError = true
    ∧ ((((⟨['@'], [⟨.EOF, "", .LoxEmptyLiteral, 1⟩], 0, 1, 1, true,
          [⟨1, "", "Unexpected character: @"⟩]⟩ : Scanner).hadError = true)
        ↔ ((⟨['@'], [⟨.EOF, "", .LoxEmptyLiteral, 1⟩], 0, 1, 1, true,
          [⟨1, "", "Unexpected character: @"⟩]⟩ : Scanner).errors ≠ []))
       ∧ mainExitCode (goStr "@") = some
          (if (⟨['@'], [⟨.EOF, "", .LoxEmptyLiteral, 1⟩], 0, 1, 1, true,
            [⟨1, "", "Unexpected character: @"⟩]⟩ : Scanner).hadError then 65 else 0)) := by
  refine ⟨c7_had_error_flag_lifecycle_and_exit_codes.1 (goStr "@"),
    c7_had_error_flag_lifecycle_and_exit_codes.2.1 ⟨[], [], 0, 0, 1, false, []⟩ 1 "" "m",
    c7_had_error_flag_lifecycle_and_exit_codes.2.2.1
      ⟨['+'], [], 0, 0, 1, true, [⟨1, "", "x"⟩]⟩ _ (by rfl) (by rfl),
    c7_had_error_flag_lifecycle_and_exit_codes.2.2.2 (goStr "@") _ (by rfl)⟩

/-- C8: a word starting at the cursor (its first character, a letter or
underscore, already consumed) is scanned as the maximal run of
letters/digits/underscores; the emitted token's type is the keyword's type
exactly when the whole word matches a reserved spelling and IDENTIFIER
otherwise; in particular "forest" scans as one IDENTIFIER token, never as
the keyword "for" followed by "est". -/
theorem c8_identifier_maximal_munch_keyword_lookup :
    (∀ (s : Scanner) (pfx : List Char) (c : Char) (w rest : List Char),
      s.source = pfx ++ c :: (w ++ rest) →
      s.start = pfx.length → s.current = pfx.length + 1 →
      isAlpha c = true → (∀ x ∈ w, isAlphaNumeric x = true) →
      (∀ x ∈ rest.take 1, isAlphaNumeric x = false) →
      identifier s =
        { s with
          current := pfx.length + 1 + w.length,
          tokens := s.tokens ++ [{
            _type := (List.lookup (String.mk (c :: w)) keywords).getD .IDENTIFIER,
            lexeme := String.mk (c :: w),
            literal := .LoxEmptyLiteral,
            line := s.line }] })
    ∧ (ScanTokens (NewScanner (goStr "forest"))).tokensOf = some
        [⟨.IDENTIFIER, "forest", .LoxEmptyLiteral, 1⟩,
         ⟨.EOF, "", .LoxEmptyLiteral, 1⟩] := by
  exact ⟨identifier_spec, by rfl⟩

/-- Witness for C8: the word "or" (first letter consumed) is scanned as the
keyword token OR with lexeme "or". -/
theorem c8_identifier_maximal_munch_keyword_lookup_witness :
    identifier ⟨goStr "or", [], 0, 1, 1, false, []⟩
      = ⟨goStr "or", [⟨.OR, "or", .LoxEmptyLiteral, 1⟩], 0, 2, 1, false, []⟩ := by
  rw [c8_identifier_maximal_munch_keyword_lookup.1
    ⟨goStr "or", [], 0, 1, 1, false, []⟩ [] 'o' ['r'] []
    (by decide) (by decide) (by decide) (by decide) (by decide) (by decide)]
  rfl

/-- C9: for every successfully scanned string literal, the emitted STRING
token's line number is the line of the closing quote: the opening quote sits
on line `s.line` and the token is stamped with `s.line` plus one increment
per newline embedded in the payload, as is the scanner's line counter at
that point. -/
theorem c9_multiline_string_token_line (s : Scanner) (pfx pre rest : List Char)
    (hsrc : s.source = pfx ++ '"' :: (pre ++ '"' :: rest))
    (hstart : s.start = pfx.length) (hcur : s.current = pfx.length + 1)
    (hpre : '"' ∉ pre) :
    (parseString s).tokens.map (fun t => (t._type, t.line))
      = s.tokens.map (fun t => (t._type, t.line)) ++ [(.STRING, s.line + pre.count '\n')]
    ∧ (parseString s).line = s.line + pre.count '\n' := by
  rw [parseString_terminated s pfx pre rest hsrc hstart hcur hpre]
  constructor
  · simp
  · rfl

/-- Witness for C9: the two-line literal with payload "a newline b" opened on
line 1 produces a STRING token stamped with line 2, the line of its closing
quote. -/
theorem c9_multiline_string_token_line_witness :
    (parseString ⟨goStr "\"a\nb\"", [], 0, 1, 1, false, []⟩).tokens.map
        (fun t => (t._type, t.line)) = [(.STRING, 2)]
    ∧ (parseString ⟨goStr "\"a\nb\"", [], 0, 1, 1, false, []⟩).line = 2 := by
  have h := c9_multiline_string_token_line
    ⟨goStr "\"a\nb\"", [], 0, 1, 1, false, []⟩ [] ['a', '\n', 'b'] []
    (by decide) (by decide) (by decide) (by decide)
  exact h

/-- C10: the token stream is a function of the source text alone.  The only
state outside the fresh scanner that a run can see is the process-wide error
state (the hadError flag and the diagnostics already written); scanning the
same source from any two values of that state yields the same outcome and,
when the scan completes, token-for-token identical sequences (same kinds,
lexemes, literal values and line numbers). -/
theorem c10_scan_tokens_independent_of_global_error_state :
    ∀ (src : List Char) (h₁ : Bool) (e₁ : List LoxDiag) (h₂ : Bool) (e₂ : List LoxDiag),
      (ScanTokens (NewScannerFrom src h₁ e₁)).tokensOf
        = (ScanTokens (NewScannerFrom src h₂ e₂)).tokensOf := by
  intro src h₁ e₁ h₂ e₂
  exact tokensOf_of_core_congr _ _ (ScanTokens_core_congr _ _ rfl)

end GoLox
